import Mathlib

/-!
Verification of the `runtime_id` crate (`src/lib.rs`).

The crate is a process-wide unique identifier generator:

* `static ID: AtomicUsize = AtomicUsize::new(0);` — a process-wide counter.
* `RuntimeID(usize)` — an opaque wrapper around one counter value,
  deriving `Clone`, `Copy`, `Debug`.
* `RuntimeID::new()` — `RuntimeID(ID.fetch_add(1, Ordering::Relaxed))`:
  returns the pre-increment counter value and bumps the counter by one
  (Rust atomic `fetch_add` wraps on overflow, i.e. arithmetic mod 2^64).
* `PartialEq` — `self.0 == other.0`.
* `Hash` — `state.write(&self.0.to_ne_bytes())`: a single `write` call of
  the 8 bytes of the `usize`, in native endianness (little-endian on the
  reference x86-64 / aarch64 platforms).

We embed machine integers as `Nat` with explicit reduction mod `2 ^ 64`
(the platform word is 64 bits wide).  Allocation is modelled as explicit
state passing of the counter value, and a hasher as the list of byte
chunks written to it so far.
-/

/-- Bit width of `usize` on the reference platform. -/
def usizeBits : Nat := 64

/-- Number of distinct `usize` values, `2 ^ 64`. -/
def usizeSize : Nat := 2 ^ usizeBits

/-- Largest `usize` value, `usize::MAX`. -/
def usizeMax : Nat := usizeSize - 1

/-- Initial value of the `static ID: AtomicUsize = AtomicUsize::new(0)`
counter, embedding `AtomicUsize::new(0)`. -/
def ID_init : Nat := 0

/-- Embeds `pub struct RuntimeID(usize);` — the tuple field `.0` is
named `val`.  Reachable identifiers always satisfy `val < usizeSize`. -/
structure RuntimeID where
  val : Nat
deriving DecidableEq, Repr

/-- Embeds `RuntimeID::new`, i.e. `RuntimeID(ID.fetch_add(1, Ordering::Relaxed))`.
The counter (`usize` state) is passed explicitly: given the current
counter `c`, the call returns the freshly built identifier together with
the new counter value.  `fetch_add` returns the pre-increment value and
stores the incremented value, wrapping mod `2 ^ 64`; the `% usizeSize`
on the returned value keeps the embedding total on `Nat` (reachable
states always satisfy `c < usizeSize`, where it is the identity). -/
def RuntimeID.new (c : Nat) : RuntimeID × Nat :=
  (⟨c % usizeSize⟩, (c + 1) % usizeSize)

/-- Embeds `PartialEq for RuntimeID`: `self.0 == other.0`. -/
def RuntimeID.eq (a b : RuntimeID) : Bool :=
  a.val == b.val

/-- Embeds `derive Copy` for `RuntimeID`: a copy is a bitwise copy of the
wrapped value, hence the identity on the embedded value. -/
def RuntimeID.copy (a : RuntimeID) : RuntimeID := a

/-- The counter value after `n` calls of `RuntimeID::new` in one process
execution, starting from the static initial value. -/
def counterAfter : Nat → Nat
  | 0 => ID_init
  | n + 1 => (RuntimeID.new (counterAfter n)).2

/-- The identifier returned by the `n`-th call (0-indexed) of
`RuntimeID::new` in one process execution. -/
def allocatedID (n : Nat) : RuntimeID :=
  (RuntimeID.new (counterAfter n)).1

/-- Little-endian byte decomposition: `k` bytes of `n`.  Helper for the
embedding of `usize::to_ne_bytes`. -/
def toLEBytes : Nat → Nat → List Nat
  | 0, _ => []
  | k + 1, n => n % 256 :: toLEBytes k (n / 256)

/-- Embeds `usize::to_ne_bytes`: the 8 bytes of a `usize`, in native
endianness (little-endian on the reference platform), byte `i` being
`n / 256 ^ i % 256`. -/
def toNeBytes (n : Nat) : List Nat :=
  toLEBytes 8 n

/-- The byte chunk that `Hash for RuntimeID` passes to `Hasher::write`:
`self.0.to_ne_bytes()`. -/
def RuntimeID.hashBytes (a : RuntimeID) : List Nat :=
  toNeBytes a.val

/-- Embeds `Hash for RuntimeID`.  A hasher accumulator is modelled as the
list of byte chunks written to it so far; `hash` performs exactly one
`state.write(&self.0.to_ne_bytes())` call, appending one chunk. -/
def RuntimeID.hash (a : RuntimeID) (state : List (List Nat)) : List (List Nat) :=
  state ++ [a.hashBytes]

/-! ### Basic lemmas about the embedding -/

theorem usizeSize_pos : 0 < usizeSize := by
  unfold usizeSize usizeBits
  exact Nat.pos_pow_of_pos 64 (by decide)

theorem counterAfter_eq (n : Nat) : counterAfter n = n % usizeSize := by
  induction n with
  | zero =>
    simp [counterAfter, ID_init]
  | succ n ih =>
    show (RuntimeID.new (counterAfter n)).2 = (n + 1) % usizeSize
    rw [RuntimeID.new, ih]
    conv_rhs => rw [Nat.add_mod]
    rw [Nat.mod_eq_of_lt (show 1 < usizeSize by
      unfold usizeSize usizeBits; decide)]

theorem allocatedID_eq (n : Nat) : allocatedID n = ⟨n % usizeSize⟩ := by
  rw [allocatedID, RuntimeID.new, counterAfter_eq]
  simp [Nat.mod_mod_of_dvd, Nat.mod_self]

theorem toLEBytes_length (k : Nat) : ∀ n, (toLEBytes k n).length = k := by
  induction k with
  | zero => intro n; rfl
  | succ k ih => intro n; simp [toLEBytes, ih]

theorem toLEBytes_injOn (k : Nat) :
    ∀ a b : Nat, a < 256 ^ k → b < 256 ^ k →
      toLEBytes k a = toLEBytes k b → a = b := by
  induction k with
  | zero =>
    intro a b ha hb _
    simp [Nat.pow_zero] at ha hb
    omega
  | succ k ih =>
    intro a b ha hb h
    rw [toLEBytes, toLEBytes, List.cons.injEq] at h
    have hda : a / 256 < 256 ^ k := by
      apply Nat.div_lt_of_lt_mul
      rw [Nat.mul_comm]
      rw [Nat.pow_succ] at ha
      exact ha
    have hdb : b / 256 < 256 ^ k := by
      apply Nat.div_lt_of_lt_mul
      rw [Nat.mul_comm]
      rw [Nat.pow_succ] at hb
      exact hb
    have hdiv := ih (a / 256) (b / 256) hda hdb h.2
    have hmod := h.1
    omega

theorem pow256_8 : 256 ^ 8 = usizeSize := by
  unfold usizeSize usizeBits
  norm_num

/-! ### Claims -/

/-- C3: for every pair of identifiers `a` and `b`, `equals(a, b)`
(`PartialEq for RuntimeID`) returns `true` if and only if `a` and `b`
wrap the same underlying counter value. -/
theorem eq_iff_val_eq (a b : RuntimeID) :
    RuntimeID.eq a b = true ↔ a.val = b.val := by
  simp [RuntimeID.eq]

/-- C5: `equals(a, a)` is `true` for every identifier `a`, and a copy of
`a` (derived `Copy`) compares equal to `a` under `equals`. -/
theorem eq_refl_and_copy (a : RuntimeID) :
    RuntimeID.eq a a = true ∧ RuntimeID.eq (RuntimeID.copy a) a = true := by
  simp [RuntimeID.eq, RuntimeID.copy]

/-- C7: the process-wide counter is initialized to zero at process start,
before any allocation occurs: the static initializer is
`AtomicUsize::new(0)`, so the counter before the first allocation is 0. -/
theorem counter_init_zero : ID_init = 0 ∧ counterAfter 0 = 0 := by
  exact ⟨rfl, rfl⟩

/-- C1 counterexample: the claim fails as stated — invocation 1 and
invocation `usizeSize + 1` are distinct invocations in one process
execution, yet `fetch_add` wraps mod `2 ^ 64`, so the two returned
identifiers compare equal. -/
theorem uniqueness_cex :
    (1 : Nat) ≠ usizeSize + 1 ∧
    RuntimeID.eq (allocatedID 1) (allocatedID (usizeSize + 1)) = true := by
  constructor
  · have := usizeSize_pos
    omega
  · rw [allocatedID_eq, allocatedID_eq, Nat.add_comm usizeSize 1,
      Nat.add_mod_right]
    simp [RuntimeID.eq]

/-- C1 (amended): among the first `2 ^ 64` invocations of
`RuntimeID::new` in one process execution, every pair of distinct
invocations returns identifiers that compare unequal. -/
theorem uniqueness_within_range (i j : Nat) (hi : i < usizeSize)
    (hj : j < usizeSize) (hne : i ≠ j) :
    RuntimeID.eq (allocatedID i) (allocatedID j) = false := by
  rw [allocatedID_eq, allocatedID_eq]
  simp [RuntimeID.eq, Nat.mod_eq_of_lt hi, Nat.mod_eq_of_lt hj]
  exact hne

/-- Witness for C1 at invocations 0 and 1. -/
theorem uniqueness_within_range_witness :
    (0 : Nat) < usizeSize ∧ (1 : Nat) < usizeSize ∧ (0 : Nat) ≠ 1 ∧
    RuntimeID.eq (allocatedID 0) (allocatedID 1) = false :=
  ⟨by decide, by decide, by decide,
    uniqueness_within_range 0 1 (by decide) (by decide) (by decide)⟩

/-- C2 counterexample: when the pre-increment counter value is
`usize::MAX`, the `fetch_add` wraps and the counter afterwards is 0, not
the pre-increment value plus one. -/
theorem new_increment_cex :
    (RuntimeID.new usizeMax).2 ≠ usizeMax + 1 := by decide

/-- C2 (amended): a call of `RuntimeID::new` at counter value `c`
returns an identifier wrapping `c` and leaves the counter at
`(c + 1) % 2 ^ 64`, which equals `c + 1` whenever `c < usize::MAX`. -/
theorem new_spec (c : Nat) (hc : c < usizeSize) :
    (RuntimeID.new c).1 = ⟨c⟩ ∧
    (RuntimeID.new c).2 = (c + 1) % usizeSize ∧
    (c + 1 < usizeSize → (RuntimeID.new c).2 = c + 1) := by
  refine ⟨?_, rfl, ?_⟩
  · simp [RuntimeID.new, Nat.mod_eq_of_lt hc]
  · intro h
    simp [RuntimeID.new, Nat.mod_eq_of_lt h]

/-- Witness for C2 at counter value 5. -/
theorem new_spec_witness :
    (5 : Nat) < usizeSize ∧
    ((RuntimeID.new 5).1 = ⟨5⟩ ∧
     (RuntimeID.new 5).2 = (5 + 1) % usizeSize ∧
     (5 + 1 < usizeSize → (RuntimeID.new 5).2 = 5 + 1)) :=
  ⟨by decide, new_spec 5 (by decide)⟩

/-- C4 counterexample: an allocation at counter value `usize::MAX` wraps
the counter to 0, which is smaller than the value it held before. -/
theorem counter_monotonic_cex :
    (RuntimeID.new usizeMax).2 < usizeMax := by decide

/-- C4 (amended): as long as the counter has not reached `usize::MAX`,
each allocation strictly increases it, by exactly one; only the
wraparound at `usize::MAX` resets it (to zero). -/
theorem counter_monotonic (c : Nat) (h : c + 1 < usizeSize) :
    c < (RuntimeID.new c).2 ∧ (RuntimeID.new c).2 = c + 1 := by
  have h2 : (RuntimeID.new c).2 = c + 1 := by
    simp [RuntimeID.new, Nat.mod_eq_of_lt h]
  exact ⟨by rw [h2]; omega, h2⟩

/-- Witness for C4 at counter value 0. -/
theorem counter_monotonic_witness :
    (0 : Nat) + 1 < usizeSize ∧
    (0 < (RuntimeID.new 0).2 ∧ (RuntimeID.new 0).2 = 0 + 1) :=
  ⟨by decide, counter_monotonic 0 (by decide)⟩

/-- C6: the contribution an identifier makes to a hash accumulator is
determined solely by its underlying counter value (the single chunk
`to_ne_bytes` of the value), so identifiers that compare equal make
identical contributions to accumulators in the same state. -/
theorem hash_eq_of_eq (a b : RuntimeID) (s : List (List Nat))
    (h : RuntimeID.eq a b = true) :
    RuntimeID.hash a s = RuntimeID.hash b s ∧
    RuntimeID.hash a s = s ++ [toNeBytes a.val] := by
  have hv : a.val = b.val := by simpa [RuntimeID.eq] using h
  exact ⟨by simp [RuntimeID.hash, RuntimeID.hashBytes, hv], rfl⟩

/-- Witness for C6 at the identifier wrapping 3 and the empty
accumulator. -/
theorem hash_eq_of_eq_witness :
    RuntimeID.eq ⟨3⟩ ⟨3⟩ = true ∧
    (RuntimeID.hash ⟨3⟩ [] = RuntimeID.hash ⟨3⟩ [] ∧
     RuntimeID.hash ⟨3⟩ [] = [] ++ [toNeBytes (RuntimeID.mk 3).val]) :=
  ⟨by decide, hash_eq_of_eq ⟨3⟩ ⟨3⟩ [] (by decide)⟩

/-- C9: every identifier's `Hash` impl performs exactly one `write` of a
fixed-width chunk of `size_of::<usize>() = 8` native-endian bytes, and
unequal identifiers write different byte chunks, so the hash input is
injective on (representable) identifiers. -/
theorem hash_input_injective (a b : RuntimeID) (s : List (List Nat))
    (ha : a.val < usizeSize) (hb : b.val < usizeSize) :
    (RuntimeID.eq a b = false → a.hashBytes ≠ b.hashBytes) ∧
    a.hashBytes.length = 8 ∧
    RuntimeID.hash a s = s ++ [a.hashBytes] := by
  refine ⟨?_, toLEBytes_length 8 a.val, rfl⟩
  intro hne hcontra
  have ha' : a.val < 256 ^ 8 := by rw [pow256_8]; exact ha
  have hb' : b.val < 256 ^ 8 := by rw [pow256_8]; exact hb
  have hv : a.val = b.val := toLEBytes_injOn 8 a.val b.val ha' hb' hcontra
  simp [RuntimeID.eq, hv] at hne

/-- Witness for C9 at the identifiers wrapping 0 and 1 and the empty
accumulator. -/
theorem hash_input_injective_witness :
    (RuntimeID.mk 0).val < usizeSize ∧ (RuntimeID.mk 1).val < usizeSize ∧
    ((RuntimeID.eq ⟨0⟩ ⟨1⟩ = false →
        RuntimeID.hashBytes ⟨0⟩ ≠ RuntimeID.hashBytes ⟨1⟩) ∧
     (RuntimeID.hashBytes ⟨0⟩).length = 8 ∧
     RuntimeID.hash ⟨0⟩ [] = [] ++ [RuntimeID.hashBytes ⟨0⟩]) :=
  ⟨by decide, by decide,
    hash_input_injective ⟨0⟩ ⟨1⟩ [] (by decide) (by decide)⟩

/-- C10: when the counter holds `usize::MAX`, the next call of
`RuntimeID::new` returns an identifier wrapping `usize::MAX` and wraps
the counter around to zero, after which subsequently allocated
identifiers repeat earlier counter values: the allocation of index
`2 ^ 64` returns an identifier equal to the one of index 0, so
uniqueness is lost. -/
theorem wraparound :
    RuntimeID.new usizeMax = (⟨usizeMax⟩, 0) ∧
    RuntimeID.eq (allocatedID usizeSize) (allocatedID 0) = true := by
  constructor
  · decide
  · rw [allocatedID_eq, allocatedID_eq, Nat.mod_self]
    simp [RuntimeID.eq]
